import Mathlib

/-!
# Verification of the binance-cli advanced order managers

Shallow embedding, over exact rationals `ℚ`, of the quantity/price
validators, TWAP chunking and status machine, OCO placement flow, and grid
engine of `src/src/advanced/{twap,oco,grid}.py` and the shared validators of
`src/src/{market_orders,limit_orders}.py`.  Numeric values that the Python
code holds as `float` or `Decimal` are modelled as rationals; every concrete
input used below was checked to evaluate identically under the source's own
arithmetic.
-/

namespace BinanceCli

/-- Floored remainder `a - b * ⌊a / b⌋`.  This is Python's `%` on
nonnegative `Decimal`s (and on `float`s), as used by the step-size checks in
`oco.py` lines 77-80 and the analogous code in `market_orders.py` and
`limit_orders.py`. -/
def decMod (a b : ℚ) : ℚ := a - b * ⌊a / b⌋

/-- `math.floor(x / step) * step`: round `x` down to a multiple of `step`
(`twap.py` line 143/149, `grid.py` lines 139 and 203). -/
def roundStep (x step : ℚ) : ℚ := (⌊x / step⌋ : ℤ) * step

theorem roundStep_eq_sub_decMod (x step : ℚ) :
    roundStep x step = x - decMod x step := by
  simp [roundStep, decMod]
  ring

theorem decMod_nonneg {b : ℚ} (hb : 0 < b) (a : ℚ) : 0 ≤ decMod a b := by
  have h' : (⌊a / b⌋ : ℚ) * b ≤ (a / b) * b :=
    mul_le_mul_of_nonneg_right (Int.floor_le _) hb.le
  rw [div_mul_cancel₀ _ hb.ne'] at h'
  unfold decMod
  linarith [h', mul_comm b (⌊a / b⌋ : ℚ)]

theorem decMod_lt {b : ℚ} (hb : 0 < b) (a : ℚ) : decMod a b < b := by
  have h : (a / b - 1) * b < (⌊a / b⌋ : ℚ) * b :=
    mul_lt_mul_of_pos_right (Int.sub_one_lt_floor (a / b)) hb
  rw [sub_mul, div_mul_cancel₀ _ hb.ne', one_mul] at h
  unfold decMod
  linarith [mul_comm b (⌊a / b⌋ : ℚ)]

/-- Lot-size filter of a symbol (`LOT_SIZE`: `minQty`, `maxQty`,
`stepSize`). -/
structure LotRules where
  minQty : ℚ
  maxQty : ℚ
  stepSize : ℚ
  deriving DecidableEq, Repr

/-- `validate_quantity` as implemented with exact `Decimal` arithmetic in
`oco.py` lines 48-86 (identically in `market_orders.py` lines 48-83 and
`limit_orders.py` lines 88-123): reject when the quantity is out of the
`[minQty, maxQty]` range, then reject when `(qty - minQty) % stepSize` is
nonzero (the remainder check is skipped when `stepSize ≤ 0`).  The TWAP
variant (`twap.py` lines 52-84) computes the same formula but with binary
`float` remainders and no `stepSize > 0` guard; at the exact-decimal level
modelled here the two coincide whenever `stepSize > 0`. -/
def validate_quantity (r : LotRules) (qty : ℚ) : Bool :=
  if qty < r.minQty ∨ qty > r.maxQty then false
  else if 0 < r.stepSize then
    if decMod (qty - r.minQty) r.stepSize ≠ 0 then false else true
  else true

/-- C1 (counterexample): the claim's own example is false on the code.  With
`minQty = 0.001`, `maxQty = 1000`, `stepSize = 0.001`, the quantity
`qty = 0.0015` is REJECTED by `validate_quantity`, because the exact-decimal
remainder `(0.0015 - 0.001) mod 0.001 = 0.0005` is nonzero; the claim states
it is accepted. -/
theorem C1_example_rejected :
    validate_quantity ⟨1/1000, 1000, 1/1000⟩ (15/10000) = false ∧
      decMod (15/10000 - 1/1000) (1/1000) = 5/10000 := by
  constructor
  · norm_num [validate_quantity, decMod]
  · norm_num [decMod]

/-- C1 (amended): for every rules record with `stepSize > 0` and every
quantity, `validate_quantity` (exact-decimal form, used by the OCO, market
and limit managers; the TWAP manager computes the same formula with binary
`float` remainders) accepts iff `minQty ≤ qty ≤ maxQty` and
`(qty - minQty) mod stepSize = 0`; in particular `qty = 0.0015` against
`stepSize = 0.001, minQty = 0.001` is rejected, not accepted. -/
theorem C1_validate_quantity_iff (r : LotRules) (qty : ℚ) (hs : 0 < r.stepSize) :
    validate_quantity r qty = true ↔
      r.minQty ≤ qty ∧ qty ≤ r.maxQty ∧ decMod (qty - r.minQty) r.stepSize = 0 := by
  unfold validate_quantity
  by_cases h1 : qty < r.minQty ∨ qty > r.maxQty
  · rw [if_pos h1]
    constructor
    · intro h
      simp at h
    · rintro ⟨hmin, hmax, -⟩
      rcases h1 with h | h
      · exact absurd hmin (not_le.2 h)
      · exact absurd hmax (not_le.2 h)
  · rw [if_neg h1, if_pos hs]
    push_neg at h1
    by_cases h3 : decMod (qty - r.minQty) r.stepSize ≠ 0
    · rw [if_pos h3]
      constructor
      · intro h
        simp at h
      · rintro ⟨-, -, hz⟩
        exact absurd hz h3
    · push_neg at h3
      simp [h1.1, h1.2, h3]

/-- C1 witness: `qty = 0.002` with `minQty = stepSize = 0.001` is accepted,
via the amended characterisation. -/
theorem C1_validate_quantity_iff_witness :
    validate_quantity ⟨1/1000, 1000, 1/1000⟩ (1/500) = true :=
  (C1_validate_quantity_iff ⟨1/1000, 1000, 1/1000⟩ (1/500) (by norm_num)).mpr
    (by norm_num [decMod])

/-! ## TWAP chunking (`twap.py`, `calculate_order_chunks`, lines 103-161) -/

/-- The chunk size used for each of the first `num_orders - 1` iterations of
`calculate_order_chunks` (`twap.py` lines 141-145):
`max(math.floor(base_chunk / step_size) * step_size, min_qty)`.  The loop
body does not depend on the iteration index (`base_chunk` is fixed), so
every one of those chunks equals this value. -/
def twapChunk (total : ℚ) (num : ℕ) (step minQty : ℚ) : ℚ :=
  max (roundStep (total / (num : ℚ)) step) minQty

/-- `remaining_qty` after the first `num_orders - 1` loop iterations of
`calculate_order_chunks` (`twap.py` lines 139-146). -/
def twapRemaining (total : ℚ) (num : ℕ) (step minQty : ℚ) : ℚ :=
  total - ((num - 1 : ℕ) : ℚ) * twapChunk total num step minQty

/-- `TWAPOrderManager.calculate_order_chunks` (`twap.py` lines 103-161):
the first `num_orders - 1` chunks are `twapChunk`; the final chunk is the
remainder rounded down to the step when that is at least `min_qty`,
otherwise the remainder is folded into the previous chunk
(`chunks[-1] += remaining_qty`), and with no previous chunk the list is
returned as is. -/
def calculate_order_chunks (total : ℚ) (num : ℕ) (step minQty : ℚ) : List ℚ :=
  let chunk := twapChunk total num step minQty
  let firstChunks := List.replicate (num - 1) chunk
  let remaining := twapRemaining total num step minQty
  let lastChunk := roundStep remaining step
  if minQty ≤ lastChunk then firstChunks ++ [lastChunk]
  else if firstChunks = [] then firstChunks
  else firstChunks.dropLast ++ [chunk + remaining]

/-- C2 (counterexample): the chunk list does not always sum to exactly
`totalQuantity`.  With `totalQuantity = 1.05`, `numOrders = 2`,
`stepSize = 0.1`, `minQty = 0.1` the produced chunks are `[0.5, 0.5]`,
summing to `1.0 ≠ 1.05` (the final chunk is the remainder rounded DOWN to
the step, and the rounding loss is not added back). -/
theorem C2_sum_counterexample :
    calculate_order_chunks (21/20) 2 (1/10) (1/10) = [1/2, 1/2] ∧
      (calculate_order_chunks (21/20) 2 (1/10) (1/10)).sum ≠ 21/20 := by
  have h : calculate_order_chunks (21/20) 2 (1/10) (1/10) = [1/2, 1/2] := by
    norm_num [calculate_order_chunks, twapChunk, twapRemaining, roundStep,
      List.replicate]
  refine ⟨h, ?_⟩
  rw [h]
  norm_num

/-- C2 (amended): for `numOrders ≥ 1` and `stepSize > 0`, when the rounded
remainder clears `minQty` the chunk list sums to `totalQuantity` MINUS a
rounding shortfall `decMod remaining stepSize ∈ [0, stepSize)` (so the sum
is exact only when the remainder is a step multiple), and every chunk is at
least `minQty`; when the rounded remainder falls below `minQty` and
`numOrders ≥ 2` it is folded into the previous chunk, the sum is exactly
`totalQuantity`, and every chunk except the folded final one is at least
`minQty`. -/
theorem C2_chunks_sum (total : ℚ) (num : ℕ) (step minQty : ℚ)
    (hnum : 1 ≤ num) (hstep : 0 < step) :
    (minQty ≤ roundStep (twapRemaining total num step minQty) step →
      (calculate_order_chunks total num step minQty).sum =
          total - decMod (twapRemaining total num step minQty) step ∧
        0 ≤ decMod (twapRemaining total num step minQty) step ∧
        decMod (twapRemaining total num step minQty) step < step ∧
        ∀ c ∈ calculate_order_chunks total num step minQty, minQty ≤ c) ∧
    (roundStep (twapRemaining total num step minQty) step < minQty → 2 ≤ num →
      (calculate_order_chunks total num step minQty).sum = total ∧
        ∀ c ∈ (calculate_order_chunks total num step minQty).dropLast,
          minQty ≤ c) := by
  constructor
  · intro hA
    have hres : calculate_order_chunks total num step minQty =
        List.replicate (num - 1) (twapChunk total num step minQty) ++
          [roundStep (twapRemaining total num step minQty) step] := by
      unfold calculate_order_chunks
      simp only [if_pos hA]
    refine ⟨?_, decMod_nonneg hstep _, decMod_lt hstep _, ?_⟩
    · rw [hres, List.sum_append, List.sum_replicate, List.sum_cons,
        List.sum_nil, roundStep_eq_sub_decMod, twapRemaining]
      push_cast [nsmul_eq_mul]
      ring
    · intro c hc
      rw [hres, List.mem_append] at hc
      rcases hc with hc | hc
      · rw [List.eq_of_mem_replicate hc]
        exact le_max_right _ _
      · rw [List.mem_singleton.mp hc]
        exact hA
  · intro hB hnum2
    obtain ⟨k, hk⟩ : ∃ k, num - 1 = k + 1 :=
      ⟨num - 2, by omega⟩
    have hne : List.replicate (num - 1) (twapChunk total num step minQty) ≠ [] := by
      rw [hk]
      simp
    have hres : calculate_order_chunks total num step minQty =
        List.replicate k (twapChunk total num step minQty) ++
          [twapChunk total num step minQty + twapRemaining total num step minQty] := by
      unfold calculate_order_chunks
      simp only [if_neg (not_le.2 hB), if_neg hne]
      rw [hk, List.replicate_succ', List.dropLast_concat]
    constructor
    · rw [hres, List.sum_append, List.sum_replicate, List.sum_cons,
        List.sum_nil, twapRemaining, hk]
      push_cast [nsmul_eq_mul]
      ring
    · intro c hc
      rw [hres, List.dropLast_concat] at hc
      rw [List.eq_of_mem_replicate hc]
      exact le_max_right _ _

/-- C2 witness: the amended statement at `totalQuantity = 1.05`,
`numOrders = 2`, `stepSize = minQty = 0.1` — the non-fold branch, where the
sum falls short of `totalQuantity` by the rounding loss `0.05`. -/
theorem C2_chunks_sum_witness :
    (calculate_order_chunks (21/20) 2 (1/10) (1/10)).sum =
      21/20 - decMod (twapRemaining (21/20) 2 (1/10) (1/10)) (1/10) :=
  (((C2_chunks_sum (21/20) 2 (1/10) (1/10) (by norm_num) (by norm_num)).1
    (by norm_num [twapRemaining, twapChunk, roundStep]))).1

/-! ## Grid resting orders (`grid.py`, `_place_initial_grid_orders`,
`_handle_buy_fill`, `_handle_sell_fill`) -/

/-- Resting grid orders, keyed by price level: the key sets of the
`buy_orders` and `sell_orders` dicts of a grid (`grid.py` lines 223-224),
as lists in insertion order. -/
structure GridState where
  buyOrders : List ℚ
  sellOrders : List ℚ
  deriving DecidableEq, Repr

/-- Python dict assignment `d[price] = order` on the key list: assigning an
existing key leaves the keys unchanged, a new key is appended. -/
def dictInsert (p : ℚ) (l : List ℚ) : List ℚ := if p ∈ l then l else l ++ [p]

theorem mem_dictInsert_self (p : ℚ) (l : List ℚ) : p ∈ dictInsert p l := by
  unfold dictInsert
  split_ifs with h
  · exact h
  · simp

theorem nodup_dictInsert (p : ℚ) {l : List ℚ} (h : l.Nodup) :
    (dictInsert p l).Nodup := by
  unfold dictInsert
  split_ifs with hp
  · exact h
  · simp [List.nodup_append, h, hp]

/-- `_place_initial_grid_orders` (`grid.py` lines 255-310): a buy order at
every grid level strictly below the center price, a sell order at every
level strictly above it. -/
def initialGridState (levels : List ℚ) (center : ℚ) : GridState :=
  { buyOrders := levels.filter (fun p => p < center)
    sellOrders := levels.filter (fun p => center < p) }

/-- `_handle_buy_fill` (`grid.py` lines 368-413): remove the filled buy at
`price` from `buy_orders`, then place a replacement sell at the smallest
grid level strictly above `price`, if one exists. -/
def handle_buy_fill (levels : List ℚ) (s : GridState) (price : ℚ) : GridState :=
  let buys := s.buyOrders.erase price
  match (levels.filter (fun p => price < p)).min? with
  | none => { buyOrders := buys, sellOrders := s.sellOrders }
  | some sellPrice =>
      { buyOrders := buys, sellOrders := dictInsert sellPrice s.sellOrders }

/-- `_handle_sell_fill` (`grid.py` lines 415-469): remove the filled sell at
`price` from `sell_orders`, then place a replacement buy at the largest grid
level strictly below `price`, if one exists. -/
def handle_sell_fill (levels : List ℚ) (s : GridState) (price : ℚ) : GridState :=
  let sells := s.sellOrders.erase price
  match (levels.filter (fun p => p < price)).max? with
  | none => { buyOrders := s.buyOrders, sellOrders := sells }
  | some buyPrice =>
      { buyOrders := dictInsert buyPrice s.buyOrders, sellOrders := sells }

/-- One fill-handling step of `_monitor_grid` (`grid.py` lines 324-346): a
fill is handled only for an order currently resting in the corresponding
map. -/
inductive GridStep (levels : List ℚ) : GridState → GridState → Prop
  | buyFill {s : GridState} (price : ℚ) (h : price ∈ s.buyOrders) :
      GridStep levels s (handle_buy_fill levels s price)
  | sellFill {s : GridState} (price : ℚ) (h : price ∈ s.sellOrders) :
      GridStep levels s (handle_sell_fill levels s price)

/-- The states of a grid run: the initial placement followed by any sequence
of buy-fill / sell-fill handling steps. -/
def GridReachable (levels : List ℚ) (center : ℚ) (s : GridState) : Prop :=
  Relation.ReflTransGen (GridStep levels) (initialGridState levels center) s

/-- The claimed invariant: each price level holds at most one resting order,
and appears in at most one of the two maps. -/
def gridLevelInvariant (s : GridState) : Prop :=
  s.buyOrders.Nodup ∧ s.sellOrders.Nodup ∧
    ∀ p : ℚ, ¬(p ∈ s.buyOrders ∧ p ∈ s.sellOrders)

/-- C3 (counterexample): the invariant is violated one step after the
initial placement.  With levels `[90, 95, 100, 105, 110]` and center `100`,
the initial state is buys `{90, 95}`, sells `{105, 110}`; handling the fill
of the buy at `90` places the replacement sell at the smallest level above
`90`, which is `95` — where a buy still rests.  The reachable successor
state has level `95` in both maps. -/
theorem C3_invariant_counterexample :
    GridReachable [90, 95, 100, 105, 110] 100
        (handle_buy_fill [90, 95, 100, 105, 110]
          (initialGridState [90, 95, 100, 105, 110] 100) 90) ∧
      ¬ gridLevelInvariant
          (handle_buy_fill [90, 95, 100, 105, 110]
            (initialGridState [90, 95, 100, 105, 110] 100) 90) := by
  have hinit : initialGridState [90, 95, 100, 105, 110] 100 =
      { buyOrders := [90, 95], sellOrders := [105, 110] } := by
    unfold initialGridState
    norm_num [List.filter]
  have hstep : handle_buy_fill [90, 95, 100, 105, 110]
      (initialGridState [90, 95, 100, 105, 110] 100) 90 =
      { buyOrders := [95], sellOrders := [105, 110, 95] } := by
    rw [hinit]
    unfold handle_buy_fill
    norm_num [List.filter, List.min?, List.erase, dictInsert, min_def]
  constructor
  · refine Relation.ReflTransGen.single ?_
    exact GridStep.buyFill 90 (by rw [hinit]; norm_num)
  · rw [hstep]
    intro hinv
    exact hinv.2.2 95 (by norm_num)

/-- C3 (amended): the invariant does hold for the initial placement (buys
strictly below the center and sells strictly above it are disjoint), and
over all reachable states each of the two maps individually holds at most
one order per level; but a fill-handling step may place a replacement order
at a level where an opposite-side order still rests, so cross-map
exclusivity is not an invariant of the run. -/
theorem C3_initial_invariant_and_nodup (levels : List ℚ) (center : ℚ)
    (hnd : levels.Nodup) :
    gridLevelInvariant (initialGridState levels center) ∧
      ∀ s : GridState, GridReachable levels center s →
        s.buyOrders.Nodup ∧ s.sellOrders.Nodup := by
  have hinit : gridLevelInvariant (initialGridState levels center) := by
    refine ⟨hnd.filter _, hnd.filter _, ?_⟩
    rintro p ⟨hb, hs⟩
    unfold initialGridState at hb hs
    rw [List.mem_filter] at hb hs
    have h1 : p < center := by simpa using hb.2
    have h2 : center < p := by simpa using hs.2
    exact absurd (h1.trans h2) (lt_irrefl p)
  refine ⟨hinit, ?_⟩
  intro s hs
  induction hs with
  | refl => exact ⟨hinit.1, hinit.2.1⟩
  | tail _ hstep ih =>
    cases hstep with
    | buyFill price h =>
      unfold handle_buy_fill
      cases hmin : (levels.filter (fun p => price < p)).min? with
      | none => exact ⟨ih.1.erase price, ih.2⟩
      | some sellPrice => exact ⟨ih.1.erase price, nodup_dictInsert _ ih.2⟩
    | sellFill price h =>
      unfold handle_sell_fill
      cases hmax : (levels.filter (fun p => p < price)).max? with
      | none => exact ⟨ih.1, ih.2.erase price⟩
      | some buyPrice => exact ⟨nodup_dictInsert _ ih.1, ih.2.erase price⟩

/-- C3 witness: the amended statement instantiated at the concrete grid of
the counterexample — the initial placement itself satisfies the full
invariant. -/
theorem C3_initial_invariant_witness :
    gridLevelInvariant (initialGridState [90, 95, 100, 105, 110] 100) :=
  (C3_initial_invariant_and_nodup [90, 95, 100, 105, 110] 100 (by norm_num)).1

/-! ## TWAP run status (`twap.py`, `stop_twap_order`, `_execute_twap`,
`get_twap_status`) -/

inductive TwapStatus
  | ACTIVE
  | COMPLETED
  | STOPPED
  | ERROR
  deriving DecidableEq, Repr

/-- The mutable fields of one tracked TWAP run that the status claims are
about: `active_twap_orders[twap_id]['status']` and `stop_flags[twap_id]`. -/
structure TwapRun where
  status : TwapStatus
  stopFlag : Bool
  deriving DecidableEq, Repr

/-- `stop_twap_order` on a tracked run (`twap.py` lines 401-424): sets the
stop flag and unconditionally overwrites the status with `STOPPED`, whatever
the current status is. -/
def stop_twap_order (r : TwapRun) : TwapRun :=
  { r with stopFlag := true, status := TwapStatus.STOPPED }

/-- The epilogue of `_execute_twap` (`twap.py` lines 348-350), reached both
when all chunks have been processed and when the loop was left early because
the stop flag was set: the status is unconditionally overwritten with
`COMPLETED`. -/
def execute_twap_finish (r : TwapRun) : TwapRun :=
  { r with status := TwapStatus.COMPLETED }

/-- The exception handler of `_execute_twap` (`twap.py` lines 365-368). -/
def execute_twap_error (r : TwapRun) : TwapRun :=
  { r with status := TwapStatus.ERROR }

/-- `get_twap_status` (`twap.py` lines 426-449) reads from a copy of the
tracked dict and mutates nothing. -/
def get_twap_status (r : TwapRun) : TwapStatus := r.status

/-- C4 (code evaluated at the failing input): a run that is stopped while
its background loop is still executing has status `STOPPED`, and when the
loop then reaches its epilogue the status is overwritten with `COMPLETED` —
the terminal status `STOPPED` does not persist.  Likewise `stop_twap_order`
flips an already-`COMPLETED` run to `STOPPED`.  Status queries themselves
are stable (`get_twap_status` does not mutate). -/
theorem C4_terminal_status_overwritten :
    (stop_twap_order { status := TwapStatus.ACTIVE, stopFlag := false }).status =
        TwapStatus.STOPPED ∧
      (execute_twap_finish
          (stop_twap_order { status := TwapStatus.ACTIVE, stopFlag := false })).status =
        TwapStatus.COMPLETED ∧
      (stop_twap_order { status := TwapStatus.COMPLETED, stopFlag := false }).status =
        TwapStatus.STOPPED :=
  ⟨rfl, rfl, rfl⟩

/-! ## OCO order placement (`oco.py`, `place_oco_order`, lines 145-260) -/

inductive Side
  | BUY
  | SELL
  deriving DecidableEq, Repr

/-- The caller-supplied arguments of `place_oco_order` that the claims are
about. -/
structure OcoRequest where
  side : Side
  quantity : ℚ
  takeProfitPrice : ℚ
  stopLossPrice : ℚ
  deriving DecidableEq, Repr

/-- Outcomes of the external calls made during one `place_oco_order` call:
the validator verdicts, the fetched market price (`none` = fetch failed or
price falsy), the two `futures_create_order` calls (`none` = the call raised
`BinanceAPIException`/`BinanceOrderException`), and whether the best-effort
compensating cancel succeeds. -/
structure OcoEnv where
  symbolValid : Bool
  quantityValid : Bool
  tpPriceValid : Bool
  slPriceValid : Bool
  currentPrice : Option ℚ
  tpOrderId : Option ℕ
  slOrderId : Option ℕ
  cancelSucceeds : Bool
  deriving DecidableEq, Repr

/-- Exchange order actions attempted by one `place_oco_order` call, in
order. -/
inductive OcoAction
  | placeTP
  | placeSL
  | cancelTP (orderId : ℕ)
  deriving DecidableEq, Repr

/-- The side-dependent price-ordering validation of `place_oco_order`
(`oco.py` lines 190-202): for `BUY`, reject unless
`takeProfit < current < stopLoss`; for `SELL`, reject unless
`stopLoss < current < takeProfit`. -/
def oco_prices_ok (side : Side) (tp sl current : ℚ) : Bool :=
  match side with
  | Side.BUY => if current ≤ tp then false else if sl ≤ current then false else true
  | Side.SELL => if tp ≤ current then false else if current ≤ sl then false else true

/-- `place_oco_order` (`oco.py` lines 145-260) as a function of the request
and of the environment of call outcomes: the result is the pair of placed
order ids, or `none` on any failure; alongside it the list of exchange order
actions attempted.  A `ValueError` from any validation returns `None` with
no order placed; a gateway error from the take-profit leg returns `None`
without a cancel (the order was never placed); a gateway error from the
stop-loss leg triggers a best-effort cancel of the placed take-profit order
(`try/except: pass` — the cancel outcome does not change the result) and
returns `None`. -/
def place_oco_order (req : OcoRequest) (env : OcoEnv) :
    Option (ℕ × ℕ) × List OcoAction :=
  if env.symbolValid = false then (none, [])
  else if env.quantityValid = false then (none, [])
  else if env.tpPriceValid = false then (none, [])
  else if env.slPriceValid = false then (none, [])
  else if req.quantity ≤ 0 then (none, [])
  else
    match env.currentPrice with
    | none => (none, [])
    | some current =>
      if oco_prices_ok req.side req.takeProfitPrice req.stopLossPrice current
          = false then (none, [])
      else
        match env.tpOrderId with
        | none => (none, [OcoAction.placeTP])
        | some tp =>
          match env.slOrderId with
          | none =>
              (none, [OcoAction.placeTP, OcoAction.placeSL, OcoAction.cancelTP tp])
          | some sl => (some (tp, sl), [OcoAction.placeTP, OcoAction.placeSL])

/-- C5: when every validation passes, the take-profit leg is placed
successfully and the stop-loss leg fails with a gateway error, the call
attempts exactly one best-effort cancel of the placed take-profit order and
returns failure (no order pair) — for either outcome of the cancel, which
does not change the result. -/
theorem C5_cancel_tp_on_sl_failure (req : OcoRequest) (env : OcoEnv)
    (current : ℚ) (tp : ℕ)
    (hsym : env.symbolValid = true) (hqty : env.quantityValid = true)
    (htpv : env.tpPriceValid = true) (hslv : env.slPriceValid = true)
    (hpos : 0 < req.quantity) (hcp : env.currentPrice = some current)
    (hok : oco_prices_ok req.side req.takeProfitPrice req.stopLossPrice current
      = true)
    (htp : env.tpOrderId = some tp) (hsl : env.slOrderId = none) :
    place_oco_order req env =
      (none, [OcoAction.placeTP, OcoAction.placeSL, OcoAction.cancelTP tp]) := by
  unfold place_oco_order
  rw [hsym, hqty, htpv, hslv, hcp, htp, hsl]
  simp [not_le.2 hpos, hok]

/-- C5 witness: a concrete SELL request in which the stop-loss leg fails
after the take-profit leg was placed as order `7`; the cancel itself fails
(`cancelSucceeds = false`) and the call still reports failure after the one
cancel attempt. -/
theorem C5_cancel_tp_on_sl_failure_witness :
    place_oco_order
        { side := Side.SELL, quantity := 1, takeProfitPrice := 105,
          stopLossPrice := 95 }
        { symbolValid := true, quantityValid := true, tpPriceValid := true,
          slPriceValid := true, currentPrice := some 100, tpOrderId := some 7,
          slOrderId := none, cancelSucceeds := false } =
      (none, [OcoAction.placeTP, OcoAction.placeSL, OcoAction.cancelTP 7]) :=
  C5_cancel_tp_on_sl_failure _ _ 100 7 rfl rfl rfl rfl (by norm_num) rfl
    (by norm_num [oco_prices_ok]) rfl rfl

theorem oco_prices_ok_buy_iff (tp sl current : ℚ) :
    oco_prices_ok Side.BUY tp sl current = true ↔ tp < current ∧ current < sl := by
  show (if current ≤ tp then false else if sl ≤ current then false else true)
      = true ↔ _
  split_ifs with h1 h2
  · simp only [Bool.false_eq_true, false_iff]
    rintro ⟨hlt, -⟩
    exact absurd h1 (not_le.2 hlt)
  · simp only [Bool.false_eq_true, false_iff]
    rintro ⟨-, hlt⟩
    exact absurd h2 (not_le.2 hlt)
  · push_neg at h1 h2
    simp [h1, h2]

theorem oco_prices_ok_sell_iff (tp sl current : ℚ) :
    oco_prices_ok Side.SELL tp sl current = true ↔ current < tp ∧ sl < current := by
  show (if tp ≤ current then false else if current ≤ sl then false else true)
      = true ↔ _
  split_ifs with h1 h2
  · simp only [Bool.false_eq_true, false_iff]
    rintro ⟨hlt, -⟩
    exact absurd h1 (not_le.2 hlt)
  · simp only [Bool.false_eq_true, false_iff]
    rintro ⟨-, hlt⟩
    exact absurd h2 (not_le.2 hlt)
  · push_neg at h1 h2
    simp [h1, h2]

/-- C6: with all earlier validations passing and the market price fetched,
the side-dependent ordering is enforced before any order is placed — a
violation returns failure with no order action attempted, a pass proceeds to
place the take-profit leg; for `BUY` the check passes iff
`takeProfit < current < stopLoss`, for `SELL` iff
`stopLoss < current < takeProfit`. -/
theorem C6_price_ordering_validation (req : OcoRequest) (env : OcoEnv)
    (current : ℚ)
    (hsym : env.symbolValid = true) (hqty : env.quantityValid = true)
    (htpv : env.tpPriceValid = true) (hslv : env.slPriceValid = true)
    (hpos : 0 < req.quantity) (hcp : env.currentPrice = some current) :
    (oco_prices_ok req.side req.takeProfitPrice req.stopLossPrice current
        = false → place_oco_order req env = (none, [])) ∧
    (oco_prices_ok req.side req.takeProfitPrice req.stopLossPrice current
        = true → OcoAction.placeTP ∈ (place_oco_order req env).2) ∧
    (∀ tp sl : ℚ, oco_prices_ok Side.BUY tp sl current = true ↔
        tp < current ∧ current < sl) ∧
    (∀ tp sl : ℚ, oco_prices_ok Side.SELL tp sl current = true ↔
        current < tp ∧ sl < current) := by
  refine ⟨?_, ?_, ?_, ?_⟩
  · intro hbad
    unfold place_oco_order
    rw [hsym, hqty, htpv, hslv, hcp]
    simp [not_le.2 hpos, hbad]
  · intro hok
    unfold place_oco_order
    rw [hsym, hqty, htpv, hslv, hcp]
    simp only [Bool.true_eq_false, if_false, not_le.2 hpos, hok]
    cases htp : env.tpOrderId with
    | none => simp
    | some tp =>
      cases hsl : env.slOrderId with
      | none => simp
      | some sl => simp
  · exact fun tp sl => oco_prices_ok_buy_iff tp sl current
  · exact fun tp sl => oco_prices_ok_sell_iff tp sl current

/-- C6 witness: the claim's example — `side = SELL`, current price `100`:
`takeProfitPrice = 95` fails the check and the call returns failure with no
order placed. -/
theorem C6_price_ordering_validation_witness :
    place_oco_order
        { side := Side.SELL, quantity := 1, takeProfitPrice := 95,
          stopLossPrice := 90 }
        { symbolValid := true, quantityValid := true, tpPriceValid := true,
          slPriceValid := true, currentPrice := some 100, tpOrderId := some 7,
          slOrderId := some 8, cancelSucceeds := true } = (none, []) :=
  (C6_price_ordering_validation _ _ 100 rfl rfl rfl rfl (by norm_num) rfl).1
    (by norm_num [oco_prices_ok])

/-! ## Grid start-up (`grid.py`, `place_grid_orders`,
`calculate_grid_levels`) -/

/-- The order-quantity derivation of `place_grid_orders` for the branch
`order_quantity is None` with `total_investment` given (`grid.py` lines
190-203): derive `total_investment / (grid_count * center_price)`, raise
(`none` — the run does not start) when the DERIVED value is below `minQty`,
and only then round it down to the step size. -/
def grid_order_quantity (totalInvestment : ℚ) (gridCount : ℕ)
    (centerPrice minQty stepSize : ℚ) : Option ℚ :=
  let oq := totalInvestment / ((gridCount : ℚ) * centerPrice)
  if oq < minQty then none
  else some (roundStep oq stepSize)

/-- C7 (counterexample): a run can start with a per-order quantity below
`minQty`.  With `totalInvestment = 0.8`, `gridCount = 2`,
`centerPrice = 1`, `minQty = 0.3`, `stepSize = 0.5`, the derived quantity is
`0.4 ≥ 0.3`, so the `minQty` check (applied BEFORE rounding) passes; the
subsequent rounding down to the step yields `0 < 0.3`, and the run starts
with that quantity. -/
theorem C7_starts_below_min_counterexample :
    grid_order_quantity (4/5) 2 1 (3/10) (1/2) = some 0 ∧ (0 : ℚ) < 3/10 := by
  constructor
  · norm_num [grid_order_quantity, roundStep]
  · norm_num

/-- C7 (amended): the run fails to start iff the DERIVED quantity
`totalInvestment / (gridCount × centerPrice)` — before rounding — is below
`minQty`; when it starts, the per-order quantity is that derived value
rounded down to the step size, which can itself fall below `minQty`. -/
theorem C7_quantity_derivation (ti : ℚ) (gc : ℕ) (cp minQty step : ℚ) :
    (grid_order_quantity ti gc cp minQty step = none ↔
        ti / ((gc : ℚ) * cp) < minQty) ∧
      ∀ q, grid_order_quantity ti gc cp minQty step = some q →
        q = roundStep (ti / ((gc : ℚ) * cp)) step ∧
          minQty ≤ ti / ((gc : ℚ) * cp) := by
  constructor
  · by_cases h : ti / ((gc : ℚ) * cp) < minQty
    · simp [grid_order_quantity, h]
    · simp [grid_order_quantity, h]
  · intro q hq
    by_cases h : ti / ((gc : ℚ) * cp) < minQty
    · simp [grid_order_quantity, h] at hq
    · simp [grid_order_quantity, h] at hq
      exact ⟨hq.symm, not_lt.1 h⟩

/-- C7 witness: `totalInvestment = 10`, `gridCount = 2`, `centerPrice = 1`,
`minQty = 0.3`, `stepSize = 0.5` — the run starts and its quantity is the
derived value `5` rounded to the step (still `5`). -/
theorem C7_quantity_derivation_witness :
    (5 : ℚ) = roundStep ((10 : ℚ) / (((2 : ℕ) : ℚ) * 1)) (1/2) ∧
      (3/10 : ℚ) ≤ (10 : ℚ) / (((2 : ℕ) : ℚ) * 1) :=
  (C7_quantity_derivation 10 2 1 (3/10) (1/2)).2 5
    (by norm_num [grid_order_quantity, roundStep])

/-- `calculate_grid_levels` (`grid.py` lines 106-146): evenly spaced raw
levels across `[center - range, center + range]` with
`range = center * price_range_percent`, each rounded down to the tick size,
then `sorted(set(...))` — modelled as `insertionSort` of `dedup`, which
produces the same sorted duplicate-free list. -/
def calculate_grid_levels (center pct : ℚ) (gridCount : ℕ) (tick : ℚ) :
    List ℚ :=
  let priceRange := center * pct
  let minPrice := center - priceRange
  let maxPrice := center + priceRange
  if gridCount ≤ 1 then [center]
  else
    let priceStep := (maxPrice - minPrice) / (((gridCount - 1 : ℕ)) : ℚ)
    List.insertionSort (fun a b => a ≤ b)
      (((List.range gridCount).map
        (fun i : ℕ => roundStep (minPrice + (i : ℚ) * priceStep) tick)).dedup)

/-- C8: for every `centerPrice > 0`, `priceRangePercent ∈ (0,1)`,
`gridCount ≥ 2` and `tickSize > 0`, the level list is sorted ascending and
duplicate-free, every level is an integer multiple of the tick, and every
level is one of the `gridCount` evenly spaced points of
`[center - range, center + range]` rounded down to the tick; in particular
`centerPrice = 100`, `priceRangePercent = 0.1`, `gridCount = 5`,
`tickSize = 0.01` yields exactly `[90, 95, 100, 105, 110]`. -/
theorem C8_grid_levels (center pct : ℚ) (gridCount : ℕ) (tick : ℚ)
    (hc : 0 < center) (hp1 : 0 < pct) (hp2 : pct < 1) (hgc : 2 ≤ gridCount)
    (ht : 0 < tick) :
    List.Sorted (· ≤ ·) (calculate_grid_levels center pct gridCount tick) ∧
      (calculate_grid_levels center pct gridCount tick).Nodup ∧
      (∀ x ∈ calculate_grid_levels center pct gridCount tick,
        ∃ k : ℤ, x = (k : ℚ) * tick) ∧
      (∀ x ∈ calculate_grid_levels center pct gridCount tick,
        ∃ i : ℕ, i < gridCount ∧
          x = roundStep ((center - center * pct) +
              (i : ℚ) * ((2 * (center * pct)) / (((gridCount - 1 : ℕ)) : ℚ)))
            tick) ∧
      calculate_grid_levels 100 (1/10) 5 (1/100) = [90, 95, 100, 105, 110] := by
  have hne : ¬ gridCount ≤ 1 := by omega
  have hmem : ∀ x, x ∈ calculate_grid_levels center pct gridCount tick ↔
      ∃ i : ℕ, i < gridCount ∧
        x = roundStep ((center - center * pct) +
            (i : ℚ) * ((center + center * pct - (center - center * pct)) /
              (((gridCount - 1 : ℕ)) : ℚ))) tick := by
    intro x
    unfold calculate_grid_levels
    rw [if_neg hne, List.mem_insertionSort, List.mem_dedup, List.mem_map]
    constructor
    · rintro ⟨i, hi, h⟩
      exact ⟨i, List.mem_range.1 hi, h.symm⟩
    · rintro ⟨i, hi, h⟩
      exact ⟨i, List.mem_range.2 hi, h.symm⟩
  refine ⟨?_, ?_, ?_, ?_, ?_⟩
  · unfold calculate_grid_levels
    rw [if_neg hne]
    exact List.sorted_insertionSort _ _
  · unfold calculate_grid_levels
    rw [if_neg hne]
    exact (List.perm_insertionSort _ _).nodup_iff.2 (List.nodup_dedup _)
  · intro x hx
    obtain ⟨i, -, rfl⟩ := (hmem x).1 hx
    exact ⟨_, rfl⟩
  · intro x hx
    obtain ⟨i, hi, rfl⟩ := (hmem x).1 hx
    refine ⟨i, hi, ?_⟩
    ring_nf
  · have h1 : List.range 5 = [0, 1, 2, 3, 4] := by rfl
    unfold calculate_grid_levels
    norm_num [h1, roundStep, List.dedup, List.insertionSort, List.orderedInsert]

/-- C8 witness: the concrete instance of the claim. -/
theorem C8_grid_levels_witness :
    calculate_grid_levels 100 (1/10) 5 (1/100) = [90, 95, 100, 105, 110] :=
  (C8_grid_levels 100 (1/10) 5 (1/100) (by norm_num) (by norm_num) (by norm_num)
    (by norm_num) (by norm_num)).2.2.2.2

/-! ## TWAP price-deviation monitor (`twap.py`, `_execute_twap`, lines
290-312) and grid center-price resolution (`grid.py`, lines 183-187) -/

inductive TwapEvent
  | PRICE_DEVIATION (currentPrice initialPrice deviation : ℚ)
  | CHUNK_COMPLETED
  deriving DecidableEq, Repr

/-- Outcome of the deviation-monitoring part of one `_execute_twap` chunk
iteration: the callback events emitted before order placement, and whether
the iteration goes on to place the chunk. -/
structure ChunkStep where
  events : List TwapEvent
  placesChunk : Bool
  deriving DecidableEq, Repr

/-- One chunk iteration of `_execute_twap` for which the current price was
obtained (`twap.py` lines 290-312): only when `max_price_deviation > 0` is
the relative deviation from the initial price computed, and only when it
exceeds the limit AND a callback is registered is a `PRICE_DEVIATION` event
emitted; the iteration then proceeds to place the chunk in every case (the
deviation branch contains no `continue`, `break` or `return`). -/
def twap_chunk_iteration (initialPrice currentPrice maxDeviation : ℚ)
    (callbackPresent : Bool) : ChunkStep :=
  let deviationEvents :=
    if 0 < maxDeviation then
      let priceChange := |currentPrice - initialPrice| / initialPrice
      if maxDeviation < priceChange then
        if callbackPresent then
          [TwapEvent.PRICE_DEVIATION currentPrice initialPrice priceChange]
        else []
      else []
    else []
  { events := deviationEvents, placesChunk := true }

/-- C9 (counterexample): with `maxPriceDeviation = 0` the monitor is
disabled by the `if max_deviation > 0` guard: the deviation
`|105 - 100| / 100 = 0.05` exceeds `maxPriceDeviation = 0`, a callback is
registered, and yet no `PRICE_DEVIATION` event is emitted — the claim says
an event is emitted whenever the deviation exceeds `maxPriceDeviation`. -/
theorem C9_deviation_counterexample :
    (twap_chunk_iteration 100 105 0 true).events = [] ∧
      (0 : ℚ) < |(105 : ℚ) - 100| / 100 := by
  constructor
  · norm_num [twap_chunk_iteration]
  · norm_num

/-- C9 (amended): when `maxPriceDeviation > 0` (a non-positive value
disables the monitor) and a callback is registered, a `PRICE_DEVIATION`
event carrying the deviation `|currentPrice - initialPrice| / initialPrice`
is emitted whenever that deviation exceeds `maxPriceDeviation`, no event
when it does not; the event is informational only — the chunk is placed in
every case, for any callback setting. -/
theorem C9_deviation_monitor (initialPrice currentPrice maxDeviation : ℚ)
    (hmd : 0 < maxDeviation) :
    (maxDeviation < |currentPrice - initialPrice| / initialPrice →
        (twap_chunk_iteration initialPrice currentPrice maxDeviation true).events
          = [TwapEvent.PRICE_DEVIATION currentPrice initialPrice
              (|currentPrice - initialPrice| / initialPrice)]) ∧
      (¬ maxDeviation < |currentPrice - initialPrice| / initialPrice →
        (twap_chunk_iteration initialPrice currentPrice maxDeviation true).events
          = []) ∧
      ∀ cb : Bool,
        (twap_chunk_iteration initialPrice currentPrice maxDeviation cb).placesChunk
          = true := by
  refine ⟨?_, ?_, ?_⟩
  · intro hdev
    simp [twap_chunk_iteration, hmd, hdev]
  · intro hdev
    simp [twap_chunk_iteration, hmd, hdev]
  · intro cb
    simp [twap_chunk_iteration]

/-- C9 witness: initial price `100`, current price `105`, limit `1%`: the
`5%` deviation triggers the event. -/
theorem C9_deviation_monitor_witness :
    (twap_chunk_iteration 100 105 (1/100) true).events =
      [TwapEvent.PRICE_DEVIATION 105 100 (|(105 : ℚ) - 100| / 100)] :=
  (C9_deviation_monitor 100 105 (1/100) (by norm_num)).1 (by norm_num)

/-- Python truthiness of the optional `center_price` argument of
`place_grid_orders`: `None` and `0.0` are falsy. -/
def isFalsy : Option ℚ → Bool
  | none => true
  | some x => x = 0

/-- The center-price resolution of `place_grid_orders` (`grid.py` lines
183-187): a falsy `center_price` argument is replaced by the fetched market
price, and the call raises (`none` — the run does not start) when that is
falsy in turn. -/
def resolve_center_price (centerPrice fetched : Option ℚ) : Option ℚ :=
  if isFalsy centerPrice then
    if isFalsy fetched then none else fetched
  else centerPrice

/-- C10: a `centerPrice` of `0` behaves exactly as an unset `centerPrice`
(`if not center_price` is the Python falsy test): the market price is
fetched and used, and a resolved center price is never `0` — grid levels
are never computed around the literal price `0`. -/
theorem C10_zero_center_price (fetched : Option ℚ) :
    resolve_center_price (some 0) fetched = resolve_center_price none fetched ∧
      ∀ cp c, resolve_center_price cp fetched = some c → c ≠ 0 := by
  constructor
  · simp [resolve_center_price, isFalsy]
  · intro cp c hc
    unfold resolve_center_price at hc
    by_cases hcp : isFalsy cp = true
    · rw [if_pos hcp] at hc
      by_cases hf : isFalsy fetched = true
      · rw [if_pos hf] at hc
        cases hc
      · rw [if_neg hf] at hc
        intro h0
        rw [hc, h0] at hf
        exact hf (by simp [isFalsy])
    · rw [if_neg hcp] at hc
      intro h0
      rw [hc, h0] at hcp
      exact hcp (by simp [isFalsy])

/-- C10 witness: `centerPrice = 0` with market price `5` resolves to the
fetched `5`, exactly as when `centerPrice` is unset, and `5 ≠ 0`. -/
theorem C10_zero_center_price_witness :
    resolve_center_price (some 0) (some 5) = resolve_center_price none (some 5) ∧
      (5 : ℚ) ≠ 0 :=
  ⟨(C10_zero_center_price (some 5)).1,
    (C10_zero_center_price (some 5)).2 (some 0) 5
      (by norm_num [resolve_center_price, isFalsy])⟩

end BinanceCli
